import Mathlib

/-!
Shallow embedding of the segment-retrieval and highlight-assembly core of the
Video-Rag repository (src/app.py and src/videodb_utils.py), together with
theorems checking the systems specification against it.

Times are modelled as exact rationals. Python int() applied to a number is
modelled by truncation toward zero. The external VideoDB and AI collaborators
are modelled as explicit function parameters. The ranking code of videorag.py
is not part of src/, so it is modelled from the spec where noted.
-/

namespace VideoRag

/-- Python int() applied to an exact rational: truncation toward zero,
computed as T-division of the numerator by the denominator. -/
def pyInt (q : ℚ) : ℤ := q.num.tdiv q.den

/-- A retrieved transcript segment as produced by search_video_content and
consumed by the timeline loop of app.py: a record with start_time, end_time,
score, timestamp and text fields. -/
structure Segment where
  start_time : ℚ
  end_time : ℚ
  score : ℤ
  timestamp : String
  text : String
deriving DecidableEq

/-- The comparison used by sorted(all_segments, key=lambda x: x[...]) at
app.py line 276: ascending start_time. -/
def startLE (a b : Segment) : Prop := a.start_time ≤ b.start_time

instance : DecidableRel startLE :=
  fun a b => inferInstanceAs (Decidable (a.start_time ≤ b.start_time))

instance : IsTotal Segment startLE :=
  ⟨fun a b => le_total a.start_time b.start_time⟩

instance : IsTrans Segment startLE :=
  ⟨fun _ _ _ h1 h2 => le_trans h1 h2⟩

/-- The deduplication key computed at app.py line 277: int of start_time. -/
def segKey (s : Segment) : ℤ := pyInt s.start_time

/-- The TimelineEntry appended at app.py line 281: the pair of int of
start_time and int of end_time. -/
def mkEntry (s : Segment) : ℤ × ℤ := (pyInt s.start_time, pyInt s.end_time)

/-- The deduplication walk of app.py lines 274 to 281: for each segment in
order, skip it when its integer-second key was already seen, otherwise mark
the key as seen and emit its TimelineEntry. -/
def dedupLoop : List Segment → List ℤ → List (ℤ × ℤ)
  | [], _ => []
  | s :: rest, seen =>
    if segKey s ∈ seen then dedupLoop rest seen
    else mkEntry s :: dedupLoop rest (segKey s :: seen)

/-- The Timeline Merger of app.py lines 274 to 281: sort all collected
segments ascending by start_time, then run the deduplication walk with an
initially empty seen set. -/
def mergeTimeline (xs : List Segment) : List (ℤ × ℤ) :=
  dedupLoop (xs.insertionSort startLE) []

/-- Reinterpretation of a TimelineEntry as a Segment, for feeding merger
output back into the merger. -/
def entryToSeg (p : ℤ × ℤ) : Segment :=
  { start_time := (p.1 : ℚ), end_time := (p.2 : ℚ), score := 0,
    timestamp := "", text := "" }

/-- A raw segment record as the timeline loop of app.py actually receives it:
a dictionary whose start_time and end_time keys may be absent. Only the two
time fields are read by the loop. -/
structure RawSegment where
  start_time : Option ℚ
  end_time : Option ℚ
deriving DecidableEq

/-- The error raised when the merger reads a missing field: the spec calls
this programming-contract violation an InvariantError. -/
inductive MergeError where
  | invariantError : MergeError
deriving DecidableEq

/-- The sort comparison on raw segments; it is only meaningful once every
start_time is present, which mergeTimelineE checks first. -/
def rawStartLE (a b : RawSegment) : Prop :=
  a.start_time.getD 0 ≤ b.start_time.getD 0

instance : DecidableRel rawStartLE :=
  fun a b => inferInstanceAs (Decidable (a.start_time.getD 0 ≤ b.start_time.getD 0))

/-- The deduplication walk of app.py lines 274 to 281 over raw segments,
with field reads made explicit: reading the key of a segment needs its
start_time; the end_time of a segment is read only after the segment has
survived deduplication, mirroring that the continue statement at line 279
runs before int is applied to the end_time. -/
def dedupLoopE : List RawSegment → List ℤ → Except MergeError (List (ℤ × ℤ))
  | [], _ => .ok []
  | s :: rest, seen =>
    match s.start_time with
    | none => .error .invariantError
    | some st =>
      if pyInt st ∈ seen then dedupLoopE rest seen
      else
        match s.end_time with
        | none => .error .invariantError
        | some en =>
          (dedupLoopE rest (pyInt st :: seen)).map
            (fun tl => (pyInt st, pyInt en) :: tl)

/-- The Timeline Merger over raw segments. Python sorted evaluates the sort
key of every element before the walk begins, so a missing start_time anywhere
fails the merge up front; afterwards the deduplication walk runs. -/
def mergeTimelineE (xs : List RawSegment) : Except MergeError (List (ℤ × ℤ)) :=
  if xs.all (fun s => s.start_time.isSome) then
    dedupLoopE (xs.insertionSort rawStartLE) []
  else .error .invariantError

/-- Python str.strip with no argument: drop leading and trailing whitespace. -/
def pyStrip (s : String) : String :=
  String.mk (((s.data.dropWhile Char.isWhitespace).reverse.dropWhile
    Char.isWhitespace).reverse)

/-- Modelled from the spec: the timestamp formatting rule of section 4.1 of
the spec (the implementing code lives in videorag.py, which is not under
src/): minutes and seconds zero padded, hours prefixed only from one hour
up. -/
def fmtTimestamp (offset : ℚ) : String :=
  let t := (pyInt offset).toNat
  if t < 3600 then
    (if t / 60 < 10 then "0" ++ toString (t / 60) else toString (t / 60)) ++ ":" ++
      (if t % 60 < 10 then "0" ++ toString (t % 60) else toString (t % 60))
  else
    toString (t / 3600) ++ ":" ++
      (if t % 3600 / 60 < 10 then "0" ++ toString (t % 3600 / 60)
        else toString (t % 3600 / 60)) ++ ":" ++
      (if t % 60 < 10 then "0" ++ toString (t % 60) else toString (t % 60))

/-- A raw hit as returned by the external semantic index, per section 6 of
the spec: a raw interval, a raw relevance score and the matched text. -/
structure RawHit where
  start_time : ℚ
  end_time : ℚ
  raw_score : ℚ
  text : String
deriving DecidableEq

/-- Failure signal of the external index collaborator. -/
inductive IndexFailure where
  | notReady : IndexFailure
  | network : IndexFailure
deriving DecidableEq

/-- Error kinds of the Segment Ranker, per section 7 of the spec. -/
inductive RagError where
  | validationError : RagError
  | retrievalError : RagError
deriving DecidableEq

/-- Modelled from the spec: score normalization of section 4.2 (videorag.py
is not under src/): clip and round the raw score to an integer percentage
in the range 0 to 100, clamping out-of-range values instead of rejecting
them. -/
def normScore (r : ℚ) : ℤ := max 0 (min 100 (round (100 * r)))

/-- Modelled from the spec: mapping of one raw hit into a Segment record,
with the timestamp derived deterministically from start_time. -/
def toSegment (h : RawHit) : Segment :=
  { start_time := h.start_time, end_time := h.end_time,
    score := normScore h.raw_score, timestamp := fmtTimestamp h.start_time,
    text := h.text }

/-- Modelled from the spec: the ranking order of section 4.2, descending by
normalized score with ties broken by ascending start_time. -/
def rankRel (a b : Segment) : Prop :=
  b.score < a.score ∨ (a.score = b.score ∧ a.start_time ≤ b.start_time)

instance : DecidableRel rankRel :=
  fun a b => inferInstanceAs
    (Decidable (b.score < a.score ∨ (a.score = b.score ∧ a.start_time ≤ b.start_time)))

instance : IsTotal Segment rankRel :=
  ⟨fun a b => by
    rcases lt_trichotomy a.score b.score with h | h | h
    · exact Or.inr (Or.inl h)
    · rcases le_total a.start_time b.start_time with hs | hs
      · exact Or.inl (Or.inr ⟨h, hs⟩)
      · exact Or.inr (Or.inr ⟨h.symm, hs⟩)
    · exact Or.inl (Or.inl h)⟩

instance : IsTrans Segment rankRel :=
  ⟨fun a b c hab hbc => by
    rcases hab with h1 | h1 <;> rcases hbc with h2 | h2
    · exact Or.inl (lt_trans h2 h1)
    · exact Or.inl (h2.1 ▸ h1)
    · refine Or.inl ?_
      rw [h1.1]
      exact h2
    · exact Or.inr ⟨h1.1.trans h2.1, le_trans h1.2 h2.2⟩⟩

/-- Modelled from the spec: the pure ranking step of section 4.2: normalize
every hit, sort by descending score with start_time tie break, truncate to
max_results. -/
def rankHits (hits : List RawHit) (max_results : ℕ) : List Segment :=
  ((hits.map toSegment).insertionSort rankRel).take max_results

/-- Modelled from the spec: search_video_content of the missing videorag.py,
the Segment Ranker of section 4.2: an empty or whitespace-only query is
rejected with a ValidationError before the external index is consulted; an
index failure surfaces as a RetrievalError; otherwise the raw hits are
ranked. The external index is passed in as a function so that independence
from it can be stated. -/
def search_video_content (index_search : String → Except IndexFailure (List RawHit))
    (query : String) (max_results : ℕ) : Except RagError (List Segment) :=
  if pyStrip query = "" then .error .validationError
  else
    match index_search query with
    | .ok hits => .ok (rankHits hits max_results)
    | .error _ => .error .retrievalError

/-- Whether the first character list occurs at the head of the second. -/
def charsStart : List Char → List Char → Bool
  | [], _ => true
  | _ :: _, [] => false
  | p :: ps, c :: cs => p == c && charsStart ps cs

/-- Whether the first character list occurs contiguously anywhere inside the
second: the Python membership test on strings. -/
def charsContain (pat : List Char) : List Char → Bool
  | [] => pat.isEmpty
  | c :: rest => charsStart pat (c :: rest) || charsContain pat rest

/-- videodb_utils.py lines 54 to 56: the video id is extracted from the url
only when the url is truthy and contains the characters v equals. -/
def extract_vid_id : Option String → Option String
  | none => none
  | some u =>
    if charsContain "v=".data u.data then
      some ((((u.splitOn "v=").getLastD "").splitOn "&").headD "")
    else none

/-- videodb_utils.py lines 59 to 72: one table row of shots_table_html. The
segment text is interpolated into the cell as-is. -/
def shot_row_html (vid_id : Option String) (i : ℕ) (s : Segment) : String :=
  (match vid_id with
    | some v =>
      "<td style=\x27padding:6px\x27><a href=\x27https://www.youtube.com/watch?v=" ++
        v ++ "&t=" ++ toString (pyInt s.start_time) ++ "s\x27 target=\x27_blank\x27>" ++
        s.timestamp ++ "</a></td>"
    | none => "<td style=\x27padding:6px\x27>" ++ s.timestamp ++ "</td>") |>
  (fun ts_cell =>
    "<tr>" ++ "<td style=\x27padding:6px\x27>" ++ toString i ++ "</td>" ++
      ts_cell ++ "<td style=\x27padding:6px\x27>" ++ toString s.score ++ "</td>" ++
      "<td style=\x27padding:6px\x27>" ++ s.text ++ "</td>" ++ "</tr>")

/-- videodb_utils.py lines 51 to 86: shots_table_html renders the segment
table, row per segment with a one-based index. -/
def shots_table_html (url : Option String) (segments : List Segment)
    (title : String) : String :=
  if segments = [] then "<p>No segments to show.</p>"
  else
    "<h4>" ++ title ++ "</h4>" ++
      "<table style=\x27border-collapse:collapse;border:1px solid #ddd;width:100%\x27>" ++
      "<tr>" ++ "<th style=\x27padding:6px;text-align:left\x27>#</th>" ++
      "<th style=\x27padding:6px;text-align:left\x27>Timestamp</th>" ++
      "<th style=\x27padding:6px;text-align:left\x27>Score</th>" ++
      "<th style=\x27padding:6px;text-align:left\x27>Preview</th>" ++ "</tr>" ++
      String.join ((segments.enumFrom 1).map
        (fun p => shot_row_html (extract_vid_id url) p.1 p.2)) ++
      "</table>"

/-- An external call that either returns a value or raises. -/
inductive CallError where
  | exception : CallError
deriving DecidableEq

/-- The transcript object returned by get_transcript: its text attribute may
be absent, in which case getattr supplies the empty string. -/
structure TranscriptObj where
  text : Option String
deriving DecidableEq

/-- The external video object as seen by get_transcript_text_safe: its two
transcript access methods, each of which may raise. -/
structure VideoObj where
  get_transcript_text : Except CallError String
  get_transcript : Except CallError TranscriptObj

/-- videodb_utils.py lines 34 to 42: try get_transcript_text; on any
exception try get_transcript and read the text attribute with empty-string
default; if that also raises, return the empty string. -/
def get_transcript_text_safe (v : VideoObj) : String :=
  match v.get_transcript_text with
  | .ok t => t
  | .error _ =>
    match v.get_transcript with
    | .ok tr => tr.text.getD ""
    | .error _ => ""

/-- The user-visible result of the search tab, app.py lines 188 to 208:
a warning when nothing matched, a success box with the AI answer, or an info
box presenting the top segment. -/
inductive SearchDisplay where
  | warnNoMatches : SearchDisplay
  | successAnswer : String → SearchDisplay
  | infoTopSegment : String → SearchDisplay
deriving DecidableEq

/-- app.py lines 205 and 208: the info box text built from the top segment:
its timestamp, score and text. -/
def foundMessage (s : Segment) : String :=
  "Found at " ++ s.timestamp ++ " (score " ++ toString s.score ++ "%)\n\n" ++ s.text

/-- app.py lines 191 to 193: the context lines, joined from the first three
segments that carry nonempty text. -/
def contextOf (segments : List Segment) : String :=
  String.intercalate "\n"
    (((segments.take 3).filter (fun s => !(s.text == ""))).map
      (fun s => s.timestamp ++ ": " ++ s.text))

/-- app.py lines 195 to 199: the prompt handed to the AI provider. -/
def searchPrompt (question context : String) : String :=
  "Answer briefly using the lines with timestamps. " ++
    "End with the best timestamp.\n\n" ++
    "Question: " ++ question ++ "\n\nContext:\n" ++ context ++ "\n"

/-- app.py lines 188 to 208: dispatch of the search tab after the ranker
returned. The AI call is a parameter: per the Provider Adapter contract of
section 4.5 of the spec (ai_providers.py is not under src/), it returns
either an answer string or an unavailable signal, never an exception. An
answer that is absent or empty is falsy in Python, so both lead to the
fallback info box built from the top segment. -/
def tab_search_display (used_provider : String) (has_client : Bool)
    (ai_answer_result : String → Option String) (question : String)
    (segments : List Segment) : SearchDisplay :=
  match segments with
  | [] => .warnNoMatches
  | best :: rest2 =>
    if used_provider ≠ "none" ∧ has_client = true ∧ contextOf (best :: rest2) ≠ "" then
      match ai_answer_result (searchPrompt question (contextOf (best :: rest2))) with
      | some a => if a ≠ "" then .successAnswer a else .infoTopSegment (foundMessage best)
      | none => .infoTopSegment (foundMessage best)
    else .infoTopSegment (foundMessage best)

/-- The user-visible result of the highlight-reel tab, app.py lines 283 to
300: a warning when the merged timeline is empty, a stitched stream when the
external stitcher returns one, otherwise the embedded-player fallback seated
at the first timeline entry. -/
inductive ReelOutcome where
  | noReel : ReelOutcome
  | reelStream : ℕ → String → ReelOutcome
  | reelFallback : ℕ → ℤ → ReelOutcome
deriving DecidableEq

/-- app.py lines 266 to 300: collect the per-topic result sets, merge them
into a timeline, and dispatch on the result. The stream stitcher is a
parameter returning none when it raises or yields nothing. -/
def tab_reel_outcome (topicResults : List (List Segment))
    (generate_stream : List (ℤ × ℤ) → Option String) : ReelOutcome :=
  match mergeTimeline topicResults.flatten with
  | [] => .noReel
  | e :: tl =>
    match generate_stream (e :: tl) with
    | some url => .reelStream (e :: tl).length url
    | none => .reelFallback (e :: tl).length e.1

/-- Concrete segment at 12.1 seconds, used as a witness input. -/
def segA : Segment :=
  { start_time := mkRat 121 10, end_time := 13, score := 92,
    timestamp := "00:12", text := "intro" }

/-- Concrete segment at 12.7 seconds with a different end_time, used as a
witness input. -/
def segB : Segment :=
  { start_time := mkRat 127 10, end_time := 14, score := 40,
    timestamp := "00:12", text := "detail" }

/-- Concrete segment whose text closes the surrounding table and opens a
script tag, used to exercise shots_table_html on untrusted text. -/
def injSegment : Segment :=
  { start_time := 10, end_time := 15, score := 92, timestamp := "00:10",
    text := "</td></tr></table><script>alert(1)</script>" }

/-- Concrete raw hit from the spec scenario of section 8: start 10, end 15,
raw score 0.92. -/
def hitA : RawHit :=
  { start_time := 10, end_time := 15, raw_score := mkRat 92 100, text := "intro" }

/-- Concrete raw hit from the spec scenario of section 8: start 40, end 46,
raw score 0.40. -/
def hitB : RawHit :=
  { start_time := 40, end_time := 46, raw_score := mkRat 40 100, text := "detail" }

/-- Concrete video object on which both transcript access patterns raise. -/
def vFail : VideoObj :=
  { get_transcript_text := .error .exception, get_transcript := .error .exception }

theorem pyInt_eq_floor {q : ℚ} (h : 0 ≤ q) : pyInt q = ⌊q⌋ := by
  rw [pyInt, Int.tdiv_eq_ediv (Rat.num_nonneg.2 h) (Int.natCast_nonneg q.den),
    Rat.floor_def]

theorem pyInt_eq_ceil {q : ℚ} (h : q < 0) : pyInt q = ⌈q⌉ := by
  have hnum : 0 ≤ -q.num := by
    have := Rat.num_nonneg.2 (neg_nonneg.2 (le_of_lt h))
    rwa [Rat.num_neg_eq_neg_num] at this
  have hden : (0 : ℤ) ≤ (q.den : ℤ) := Int.natCast_nonneg q.den
  have hfloor : ⌊-q⌋ = (-q.num).tdiv q.den := by
    rw [Rat.floor_def, Rat.num_neg_eq_neg_num, Rat.den_neg_eq_den,
      Int.tdiv_eq_ediv hnum hden]
  have : pyInt q = -⌊-q⌋ := by
    rw [hfloor, pyInt, ← Int.neg_tdiv, neg_neg]
  rw [this, Int.floor_neg, neg_neg]

theorem pyInt_mono {a b : ℚ} (h : a ≤ b) : pyInt a ≤ pyInt b := by
  rcases le_or_lt 0 a with ha | ha
  · rw [pyInt_eq_floor ha, pyInt_eq_floor (le_trans ha h)]
    exact Int.floor_le_floor h
  · rcases le_or_lt 0 b with hb | hb
    · rw [pyInt_eq_ceil ha, pyInt_eq_floor hb]
      have h1 : ⌈a⌉ ≤ 0 := Int.ceil_le.2 (by exact_mod_cast le_of_lt ha)
      have h2 : (0 : ℤ) ≤ ⌊b⌋ := Int.floor_nonneg.2 hb
      exact le_trans h1 h2
    · rw [pyInt_eq_ceil ha, pyInt_eq_ceil hb]
      exact Int.ceil_le_ceil h

theorem pyInt_intCast (z : ℤ) : pyInt ((z : ℚ)) = z := by
  simp [pyInt, Rat.num_intCast, Rat.den_intCast]

theorem dedupLoop_sublist (l : List Segment) (seen : List ℤ) :
    (dedupLoop l seen).Sublist (l.map mkEntry) := by
  induction l generalizing seen with
  | nil => simp [dedupLoop]
  | cons s rest ih =>
    rw [dedupLoop, List.map_cons]
    by_cases hmem : segKey s ∈ seen
    · rw [if_pos hmem]
      exact (ih seen).trans (List.sublist_cons_self _ _)
    · rw [if_neg hmem]
      exact (ih _).cons₂ _

theorem mem_dedupLoop_fst (l : List Segment) (seen : List ℤ) :
    ∀ e ∈ dedupLoop l seen, e.1 ∉ seen := by
  induction l generalizing seen with
  | nil => simp [dedupLoop]
  | cons s rest ih =>
    intro e he
    rw [dedupLoop] at he
    by_cases hmem : segKey s ∈ seen
    · rw [if_pos hmem] at he
      exact ih seen e he
    · rw [if_neg hmem] at he
      rcases List.mem_cons.1 he with rfl | he2
      · exact hmem
      · intro hs
        exact (ih _ e he2) (List.mem_cons_of_mem _ hs)

theorem dedupLoop_fst_nodup (l : List Segment) (seen : List ℤ) :
    ((dedupLoop l seen).map Prod.fst).Nodup := by
  induction l generalizing seen with
  | nil => simp [dedupLoop]
  | cons s rest ih =>
    rw [dedupLoop]
    by_cases hmem : segKey s ∈ seen
    · rw [if_pos hmem]
      exact ih seen
    · rw [if_neg hmem]
      rw [List.map_cons, List.nodup_cons]
      refine ⟨?_, ih _⟩
      intro hmem2
      rcases List.mem_map.1 hmem2 with ⟨e, he, hfst⟩
      have hni := mem_dedupLoop_fst rest (segKey s :: seen) e he
      rw [hfst] at hni
      exact hni (List.mem_cons_self _ _)

theorem dedupLoop_filter_of_mem (l : List Segment) (seen : List ℤ) (k : ℤ)
    (hk : k ∈ seen) :
    (dedupLoop l seen).filter (fun e => decide (e.1 = k)) = [] := by
  rw [List.filter_eq_nil_iff]
  intro e he
  simp only [decide_eq_true_eq]
  intro hek
  exact (mem_dedupLoop_fst l seen e he) (hek ▸ hk)

theorem dedupLoop_filter_key (l : List Segment) (seen : List ℤ) (k : ℤ)
    (hk : k ∉ seen) :
    (dedupLoop l seen).filter (fun e => decide (e.1 = k)) =
      ((l.find? (fun s => decide (segKey s = k))).map mkEntry).toList := by
  induction l generalizing seen with
  | nil => simp [dedupLoop]
  | cons s rest ih =>
    rw [dedupLoop]
    by_cases hmem : segKey s ∈ seen
    · have hne : ¬ (segKey s = k) := fun h => hk (h ▸ hmem)
      rw [if_pos hmem, List.find?_cons_of_neg _ (by simpa using hne)]
      exact ih seen hk
    · rw [if_neg hmem]
      by_cases hsk : segKey s = k
      · rw [List.find?_cons_of_pos _ (by simpa using hsk)]
        rw [List.filter_cons_of_pos (by simpa [mkEntry, segKey] using hsk)]
        rw [dedupLoop_filter_of_mem rest (segKey s :: seen) k
          (hsk ▸ List.mem_cons_self _ _)]
        rfl
      · rw [List.find?_cons_of_neg _ (by simpa using hsk)]
        rw [List.filter_cons_of_neg (by simpa [mkEntry, segKey] using hsk)]
        refine ih _ ?_
        intro hkmem
        rcases List.mem_cons.1 hkmem with h | h
        · exact hsk h.symm
        · exact hk h

theorem mergeTimeline_sorted_strict (xs : List Segment) :
    (mergeTimeline xs).Pairwise (fun a b => a.1 < b.1) := by
  have hsub := dedupLoop_sublist (xs.insertionSort startLE) []
  have hsort : (xs.insertionSort startLE).Sorted startLE :=
    List.sorted_insertionSort startLE xs
  have hle : ((xs.insertionSort startLE).map mkEntry).Pairwise
      (fun a b => a.1 ≤ b.1) :=
    List.pairwise_map.2 (hsort.imp fun h => pyInt_mono h)
  have hle2 : (mergeTimeline xs).Pairwise (fun a b => a.1 ≤ b.1) :=
    hle.sublist hsub
  have hnd : ((mergeTimeline xs).map Prod.fst).Nodup := dedupLoop_fst_nodup _ _
  have hne : (mergeTimeline xs).Pairwise (fun a b => a.1 ≠ b.1) :=
    List.pairwise_map.1 hnd
  exact (hle2.and hne).imp fun h => lt_of_le_of_ne h.1 h.2

theorem dedupLoop_eq_map (l : List Segment) (seen : List ℤ)
    (hseen : ∀ s ∈ l, segKey s ∉ seen) (hnd : (l.map segKey).Nodup) :
    dedupLoop l seen = l.map mkEntry := by
  induction l generalizing seen with
  | nil => simp [dedupLoop]
  | cons s rest ih =>
    rw [List.map_cons, List.nodup_cons] at hnd
    rw [dedupLoop, if_neg (hseen s (List.mem_cons_self _ _)), List.map_cons]
    congr 1
    refine ih _ ?_ hnd.2
    intro t ht
    simp only [List.mem_cons, not_or]
    refine ⟨?_, hseen t (List.mem_cons_of_mem _ ht)⟩
    intro he
    exact hnd.1 (he ▸ List.mem_map_of_mem segKey ht)

/-- Claim C1: for every collection of topic result sets, when two or more
segments have start_time values that truncate to the same integer second,
the Timeline Merger emits exactly one TimelineEntry for that integer-second
key, namely the entry of the segment found first in ascending start_time
sort order, with its end_time taken as-is (no interval merging). -/
theorem timeline_dedup_first_wins (tss : List (List Segment)) (k : ℤ)
    (hdup : 2 ≤ tss.flatten.countP (fun s => decide (segKey s = k))) :
    (mergeTimeline tss.flatten).filter (fun e => decide (e.1 = k)) =
      (((tss.flatten.insertionSort startLE).find?
        (fun s => decide (segKey s = k))).map mkEntry).toList ∧
    ((mergeTimeline tss.flatten).filter (fun e => decide (e.1 = k))).length = 1 := by
  have h1 : (mergeTimeline tss.flatten).filter (fun e => decide (e.1 = k)) =
      (((tss.flatten.insertionSort startLE).find?
        (fun s => decide (segKey s = k))).map mkEntry).toList :=
    dedupLoop_filter_key _ [] k (List.not_mem_nil k)
  refine ⟨h1, ?_⟩
  have hpos : 0 < tss.flatten.countP (fun s => decide (segKey s = k)) :=
    lt_of_lt_of_le (by norm_num) hdup
  rw [List.countP_pos_iff] at hpos
  rcases hpos with ⟨s, hs, hp⟩
  have hex : ∃ x ∈ tss.flatten.insertionSort startLE,
      (fun s => decide (segKey s = k)) x = true :=
    ⟨s, (List.mem_insertionSort startLE).2 hs, hp⟩
  rcases Option.isSome_iff_exists.1 (List.find?_isSome.2 hex) with ⟨y, hy⟩
  rw [h1, hy]
  rfl

/-- Witness for claim C1 at the spec scenario: two topic result sets with
segments at start_time 12.1 and 12.7 and differing end_time, key 12. -/
theorem timeline_dedup_first_wins_witness :
    (mergeTimeline ([[segA], [segB]] : List (List Segment)).flatten).filter
        (fun e => decide (e.1 = 12)) =
      (((([[segA], [segB]] : List (List Segment)).flatten.insertionSort
        startLE).find? (fun s => decide (segKey s = 12))).map mkEntry).toList ∧
    ((mergeTimeline ([[segA], [segB]] : List (List Segment)).flatten).filter
      (fun e => decide (e.1 = 12))).length = 1 :=
  timeline_dedup_first_wins [[segA], [segB]] 12 (by decide)

/-- Claim C2: for every input list of segments, the Timeline Merger output
is sorted ascending by start_time and no two emitted entries share the same
integer-second start_time key (the first component of an entry). -/
theorem timeline_sorted_and_keys_nodup (xs : List Segment) :
    (mergeTimeline xs).Pairwise (fun a b => a.1 ≤ b.1) ∧
    ((mergeTimeline xs).map Prod.fst).Nodup :=
  ⟨(mergeTimeline_sorted_strict xs).imp (fun h => le_of_lt h),
    dedupLoop_fst_nodup _ _⟩

/-- Claim C7: the Timeline Merger is idempotent: re-merging its own output
(read back as segments) returns the same Timeline, and on input that is
already deduplicated (sorted with pairwise-distinct integer-second keys) the
merger is a no-op. -/
theorem merger_idempotent_noop (xs : List Segment) :
    mergeTimeline ((mergeTimeline xs).map entryToSeg) = mergeTimeline xs ∧
    ∀ ys : List (ℤ × ℤ), ys.Pairwise (fun a b => a.1 < b.1) →
      mergeTimeline (ys.map entryToSeg) = ys := by
  have noop : ∀ ys : List (ℤ × ℤ), ys.Pairwise (fun a b => a.1 < b.1) →
      mergeTimeline (ys.map entryToSeg) = ys := by
    intro ys hys
    have hsorted : (ys.map entryToSeg).Sorted startLE := by
      refine List.pairwise_map.2 (hys.imp ?_)
      intro a b h
      show (a.1 : ℚ) ≤ (b.1 : ℚ)
      exact_mod_cast le_of_lt h
    have heq : (ys.map entryToSeg).insertionSort startLE = ys.map entryToSeg :=
      hsorted.insertionSort_eq
    rw [mergeTimeline, heq, dedupLoop_eq_map]
    · rw [List.map_map]
      have hcomp : mkEntry ∘ entryToSeg = id := by
        funext p
        simp [mkEntry, entryToSeg, pyInt_intCast]
      rw [hcomp, List.map_id]
    · simp
    · rw [List.map_map]
      have hkey : segKey ∘ entryToSeg = Prod.fst := by
        funext p
        exact pyInt_intCast p.1
      rw [hkey]
      exact List.pairwise_map.2 (hys.imp fun h => ne_of_lt h)
  exact ⟨noop _ (mergeTimeline_sorted_strict xs), noop⟩

/-- Witness for claim C7: the merger leaves the already-deduplicated
single-entry timeline 12 to 13 unchanged. -/
theorem merger_idempotent_noop_witness :
    mergeTimeline (([((12 : ℤ), (13 : ℤ))]).map entryToSeg) = [(12, 13)] :=
  (merger_idempotent_noop []).2 [(12, 13)] (by decide)

/-- Claim C8: when every topic result set is empty, the Timeline Merger
returns an empty Timeline and the reel tab reports no reel instead of an
error. -/
theorem empty_topics_empty_timeline_no_reel (tss : List (List Segment))
    (gen : List (ℤ × ℤ) → Option String) (h : ∀ ts ∈ tss, ts = []) :
    mergeTimeline tss.flatten = [] ∧ tab_reel_outcome tss gen = .noReel := by
  have hflat : tss.flatten = [] := by
    rw [List.flatten_eq_nil_iff]
    exact h
  have hm : mergeTimeline tss.flatten = [] := by
    rw [hflat]
    rfl
  refine ⟨hm, ?_⟩
  unfold tab_reel_outcome
  rw [hm]

/-- Witness for claim C8 at two empty topic result sets. -/
theorem empty_topics_empty_timeline_no_reel_witness :
    mergeTimeline ([[], []] : List (List Segment)).flatten = [] ∧
    tab_reel_outcome ([[], []] : List (List Segment)) (fun _ => none) = .noReel :=
  empty_topics_empty_timeline_no_reel [[], []] (fun _ => none) (by decide)

theorem dedupLoopE_ok (l : List RawSegment) (seen : List ℤ)
    (h : ∀ s ∈ l, s.start_time.isSome ∧ s.end_time.isSome) :
    ∃ tl, dedupLoopE l seen = .ok tl := by
  induction l generalizing seen with
  | nil => exact ⟨[], rfl⟩
  | cons s rest ih =>
    obtain ⟨hs, he⟩ := h s (List.mem_cons_self _ _)
    rcases Option.isSome_iff_exists.1 hs with ⟨st, hst⟩
    rcases Option.isSome_iff_exists.1 he with ⟨en, hen⟩
    by_cases hmem : pyInt st ∈ seen
    · simp only [dedupLoopE, hst, if_pos hmem]
      exact ih seen (fun t ht => h t (List.mem_cons_of_mem _ ht))
    · rcases ih (pyInt st :: seen) (fun t ht => h t (List.mem_cons_of_mem _ ht))
        with ⟨tl, hde⟩
      refine ⟨(pyInt st, pyInt en) :: tl, ?_⟩
      simp only [dedupLoopE, hst, if_neg hmem, hen, hde, Except.map]

/-- Claim C6 counterexample: a malformed input on which the merger does not
raise. The second raw segment has no end_time, yet its integer-second key 12
duplicates the first segment, so the walk drops it before reading end_time
and the merge succeeds. -/
theorem merger_accepts_missing_end_time :
    (RawSegment.mk (some (mkRat 25 2)) none).end_time = none ∧
    mergeTimelineE [⟨some 12, some 13⟩, ⟨some (mkRat 25 2), none⟩] =
      .ok [(12, 13)] :=
  ⟨rfl, rfl⟩

/-- Claim C6 as amended: the Timeline Merger (a pure function in this
embedding, performing no I/O) can fail only on malformed input, and any
failure is the InvariantError; a segment with missing start_time always
raises, while a segment missing only end_time raises only if it survives
deduplication, and is otherwise dropped silently. -/
theorem merger_failure_characterization (xs : List RawSegment) :
    (∀ e, mergeTimelineE xs = .error e →
      e = .invariantError ∧ ∃ s ∈ xs, s.start_time = none ∨ s.end_time = none) ∧
    ((∀ s ∈ xs, s.start_time.isSome ∧ s.end_time.isSome) →
      ∃ tl, mergeTimelineE xs = .ok tl) ∧
    ((∃ s ∈ xs, s.start_time = none) →
      mergeTimelineE xs = .error .invariantError) := by
  have hok : (∀ s ∈ xs, s.start_time.isSome ∧ s.end_time.isSome) →
      ∃ tl, mergeTimelineE xs = .ok tl := by
    intro h
    rw [mergeTimelineE, if_pos (List.all_eq_true.2 (fun s hs => (h s hs).1))]
    exact dedupLoopE_ok _ []
      (fun t ht => h t ((List.mem_insertionSort rawStartLE).1 ht))
  refine ⟨?_, hok, ?_⟩
  · intro e herr
    refine ⟨by cases e; rfl, ?_⟩
    by_contra hno
    push_neg at hno
    have hwf : ∀ s ∈ xs, s.start_time.isSome ∧ s.end_time.isSome := by
      intro s hs
      obtain ⟨h1, h2⟩ := hno s hs
      exact ⟨Option.ne_none_iff_isSome.1 h1, Option.ne_none_iff_isSome.1 h2⟩
    rcases hok hwf with ⟨tl, htl⟩
    rw [herr] at htl
    exact Except.noConfusion htl
  · rintro ⟨s0, hs0, hnone⟩
    rw [mergeTimelineE, if_neg]
    intro hall
    rw [List.all_eq_true] at hall
    have := hall s0 hs0
    rw [hnone] at this
    simp at this

/-- Witness for the amended claim C6: a single segment with missing
start_time makes the merger raise the InvariantError. -/
theorem merger_failure_characterization_witness :
    mergeTimelineE [(⟨none, some 13⟩ : RawSegment)] = .error .invariantError :=
  (merger_failure_characterization [⟨none, some 13⟩]).2.2 (by decide)

/-- Claim C4: an empty or whitespace-only query is rejected with a
ValidationError, and the external index is never consulted: the result does
not depend on the index function at all. -/
theorem empty_query_validation_error
    (index_search : String → Except IndexFailure (List RawHit))
    (query : String) (max_results : ℕ) (h : pyStrip query = "") :
    search_video_content index_search query max_results = .error .validationError ∧
    ∀ idx2 : String → Except IndexFailure (List RawHit),
      search_video_content index_search query max_results =
        search_video_content idx2 query max_results := by
  constructor
  · rw [search_video_content, if_pos h]
  · intro idx2
    rw [search_video_content, if_pos h, search_video_content, if_pos h]

/-- Witness for claim C4 at a whitespace-only query. -/
theorem empty_query_validation_error_witness :
    search_video_content (fun _ => .ok []) "   " 5 = .error .validationError :=
  (empty_query_validation_error (fun _ => .ok []) "   " 5 (by decide)).1

/-- Claim C3: for a non-empty query and positive max_results, when the index
answers, the ranker output is the ranked hit list: its length is the minimum
of max_results and the hit count (so at most max_results, and no hit is
rejected), every normalized score is an integer in the range 0 to 100, and
scores are non-increasing along the output with ties broken by ascending
start_time. -/
theorem ranker_bounded_clamped_sorted
    (index_search : String → Except IndexFailure (List RawHit))
    (query : String) (max_results : ℕ) (hits : List RawHit)
    (hq : pyStrip query ≠ "") (_hm : 0 < max_results)
    (hidx : index_search query = .ok hits) :
    search_video_content index_search query max_results =
      .ok (rankHits hits max_results) ∧
    (rankHits hits max_results).length = min max_results hits.length ∧
    (rankHits hits max_results).length ≤ max_results ∧
    (∀ s ∈ rankHits hits max_results, 0 ≤ s.score ∧ s.score ≤ 100) ∧
    (rankHits hits max_results).Pairwise
      (fun a b => b.score ≤ a.score ∧
        (a.score = b.score → a.start_time ≤ b.start_time)) := by
  refine ⟨?_, ?_, ?_, ?_, ?_⟩
  · rw [search_video_content, if_neg hq, hidx]
  · rw [rankHits, List.length_take, List.length_insertionSort, List.length_map]
  · exact List.length_take_le _ _
  · intro s hs
    rw [rankHits] at hs
    have hs2 : s ∈ (hits.map toSegment).insertionSort rankRel :=
      List.mem_of_mem_take hs
    have hs3 : s ∈ hits.map toSegment := (List.mem_insertionSort rankRel).1 hs2
    rcases List.mem_map.1 hs3 with ⟨h0, _, rfl⟩
    exact ⟨le_max_left _ _, max_le (by norm_num) (min_le_left _ _)⟩
  · have hsorted : ((hits.map toSegment).insertionSort rankRel).Sorted rankRel :=
      List.sorted_insertionSort rankRel _
    have hp : (rankHits hits max_results).Pairwise rankRel :=
      hsorted.sublist (List.take_sublist _ _)
    refine hp.imp ?_
    intro a b hab
    rcases hab with h1 | h1
    · exact ⟨le_of_lt h1, fun he => absurd (he ▸ h1) (lt_irrefl _)⟩
    · exact ⟨le_of_eq h1.1.symm, fun _ => h1.2⟩

/-- Witness for claim C3 at the spec scenario hits and max_results 2. -/
theorem ranker_bounded_clamped_sorted_witness :
    search_video_content (fun _ => .ok [hitA, hitB]) "overview" 2 =
      .ok (rankHits [hitA, hitB] 2) :=
  (ranker_bounded_clamped_sorted (fun _ => .ok [hitA, hitB]) "overview" 2
    [hitA, hitB] (by decide) (by decide) rfl).1

/-- Claim C9: whenever the AI answer is unavailable or empty (for every
prompt the provider returns none or the empty string) and the ranked list is
non-empty, the search tab shows the info box built from the top segment:
its timestamp, score and text. -/
theorem answer_unavailable_falls_back (used_provider : String)
    (has_client : Bool) (ai_answer_result : String → Option String)
    (question : String) (best : Segment) (rest : List Segment)
    (hfail : ∀ prompt, ai_answer_result prompt = none ∨
      ai_answer_result prompt = some "") :
    tab_search_display used_provider has_client ai_answer_result question
      (best :: rest) = .infoTopSegment (foundMessage best) := by
  simp only [tab_search_display]
  by_cases hc : used_provider ≠ "none" ∧ has_client = true ∧
    contextOf (best :: rest) ≠ ""
  · rw [if_pos hc]
    rcases hfail (searchPrompt question (contextOf (best :: rest))) with h | h
    · rw [h]
    · rw [h]
      simp
  · rw [if_neg hc]

/-- Witness for claim C9: a provider that always signals unavailable. -/
theorem answer_unavailable_falls_back_witness :
    tab_search_display "gemini" true (fun _ => none) "What is the main topic?"
      (segA :: []) = .infoTopSegment (foundMessage segA) :=
  answer_unavailable_falls_back "gemini" true (fun _ => none)
    "What is the main topic?" segA [] (fun _ => Or.inl rfl)

/-- Claim C10: get_transcript_text_safe is a total function: when the first
access pattern succeeds its text is returned; when it raises and the second
succeeds, the text attribute with empty default is returned; when both
raise, the empty string is returned. -/
theorem get_transcript_text_safe_total (v : VideoObj) :
    (∀ t, v.get_transcript_text = .ok t → get_transcript_text_safe v = t) ∧
    (∀ e tr, v.get_transcript_text = .error e → v.get_transcript = .ok tr →
      get_transcript_text_safe v = tr.text.getD "") ∧
    (∀ e e2, v.get_transcript_text = .error e → v.get_transcript = .error e2 →
      get_transcript_text_safe v = "") := by
  refine ⟨?_, ?_, ?_⟩
  · intro t h
    unfold get_transcript_text_safe
    rw [h]
  · intro e tr h1 h2
    unfold get_transcript_text_safe
    rw [h1, h2]
  · intro e e2 h1 h2
    unfold get_transcript_text_safe
    rw [h1, h2]

/-- Witness for claim C10: both access patterns raise and the empty string
comes back. -/
theorem get_transcript_text_safe_total_witness :
    get_transcript_text_safe vFail = "" :=
  (get_transcript_text_safe_total vFail).2.2 .exception .exception rfl rfl

/-- Claim C5 refuted at a concrete input: shots_table_html embeds the
segment text verbatim, with no escaping or neutralization, so text that
closes the cell, row and table and then opens a script tag appears as-is in
the produced HTML and breaks the surrounding table structure. -/
theorem shots_table_html_embeds_raw_text :
    shots_table_html none [injSegment] "Top matches" =
      "<h4>Top matches</h4><table style=\x27border-collapse:collapse;border:1px solid #ddd;width:100%\x27><tr><th style=\x27padding:6px;text-align:left\x27>#</th><th style=\x27padding:6px;text-align:left\x27>Timestamp</th><th style=\x27padding:6px;text-align:left\x27>Score</th><th style=\x27padding:6px;text-align:left\x27>Preview</th></tr><tr><td style=\x27padding:6px\x27>1</td><td style=\x27padding:6px\x27>00:10</td><td style=\x27padding:6px\x27>92</td><td style=\x27padding:6px\x27>" ++
        injSegment.text ++ "</td></tr></table>" := by
  set_option maxRecDepth 20000 in rfl

end VideoRag
